import Mathlib

/-!
Shallow embedding of `auth_backend.py` (TODO-Backend, FastAPI + CouchDB).

The CouchDB database `db` holds both user documents and task documents,
discriminated by their `type` field; we model it as an association list
from document id to a tagged document.  Nondeterministic primitives of the
source (`uuid.uuid4()` for session tokens and task ids,
`datetime.utcnow().isoformat()` for timestamps, and the SHA-256 digest
`hashlib.sha256`) are passed in as explicit parameters, so every operation
is a pure function from its inputs and the current database to a response
together with the next database.  An HTTP error raised by a handler before
any write corresponds to returning the input database unchanged.
-/

namespace AuthBackend

/-- A user document (`type = "user"`), as built by `register`. -/
structure UserDoc where
  email : String
  username : String
  password_hash : String
  session_token : String
  created_at : String
  tasks : List String
deriving DecidableEq, Repr

/-- A task document (`type = "task"`), as built by `create_task`. -/
structure TaskDoc where
  user_email : String
  title : String
  category : String
  date : Option String
  time : Option String
  notes : Option String
  completed : Bool
  created_at : String
  updated_at : String
deriving DecidableEq, Repr

/-- A CouchDB document: either a user or a task (the `type` discriminator). -/
inductive Doc where
  | user (u : UserDoc)
  | task (t : TaskDoc)
deriving DecidableEq, Repr

/-- The database: association list from document `_id` to document. -/
abbrev DB := List (String × Doc)

/-- `db[doc_id]`: the first document stored under the id, if any. -/
def dbGet (db : DB) (id : String) : Option Doc :=
  (db.find? (fun p => p.1 == id)).map (fun p => p.2)

/-- `doc_id in db`. -/
def dbMem (db : DB) (id : String) : Bool :=
  (dbGet db id).isSome

/-- `db.save(doc)`: replace the document stored under the id, or append it. -/
def dbSave (db : DB) (id : String) (d : Doc) : DB :=
  if dbMem db id then db.map (fun p => if p.1 == id then (id, d) else p)
  else db ++ [(id, d)]

/-- `db.delete(doc)`: remove the document with the given id. -/
def dbDelete (db : DB) (id : String) : DB :=
  db.filter (fun p => p.1 != id)

/-- Domain errors, each the `HTTPException` raised at the matching place. -/
inductive Err where
  | unauthenticated
  | duplicateEmail
  | userNotFound
  | invalidPassword
  | taskNotFound
  | forbidden
  | storage
deriving DecidableEq, Repr

/-- The HTTP status code each error is surfaced with. -/
def Err.status : Err → Nat
  | .unauthenticated => 401
  | .duplicateEmail => 400
  | .userNotFound => 401
  | .invalidPassword => 401
  | .taskNotFound => 404
  | .forbidden => 403
  | .storage => 500

/-- Request body of `POST /api/register`. -/
structure UserRegister where
  email : String
  password : String
  username : String
deriving DecidableEq, Repr

/-- Request body of `POST /api/login`. -/
structure UserLogin where
  email : String
  password : String
deriving DecidableEq, Repr

/-- Request body of `POST /api/tasks` (note: no `completed` field). -/
structure TaskCreate where
  title : String
  category : String := "Дом"
  date : Option String := none
  time : Option String := none
  notes : Option String := none
deriving DecidableEq, Repr

/-- Request body of `PUT /api/tasks/{task_id}`: every field optional;
an absent field (pydantic default `None`) means "leave unchanged". -/
structure TaskUpdate where
  title : Option String := none
  category : Option String := none
  date : Option String := none
  time : Option String := none
  notes : Option String := none
  completed : Option Bool := none
deriving DecidableEq, Repr

/-- The identity dict returned by `get_current_user`. -/
structure Identity where
  email : String
  user_id : String
  username : String
deriving DecidableEq, Repr

instance {ε α : Type} [DecidableEq ε] [DecidableEq α] : DecidableEq (Except ε α) := fun a b =>
  match a, b with
  | .error e, .error f =>
    if h : e = f then .isTrue (by rw [h]) else .isFalse (fun hc => h (Except.error.inj hc))
  | .ok x, .ok y =>
    if h : x = y then .isTrue (by rw [h]) else .isFalse (fun hc => h (Except.ok.inj hc))
  | .error _, .ok _ => .isFalse (fun hc => Except.noConfusion hc)
  | .ok _, .error _ => .isFalse (fun hc => Except.noConfusion hc)

/-- `verify_password`: compare the digest of the input with the stored hash.
The SHA-256 digest itself is the abstract parameter `hashFn`. -/
def verify_password (hashFn : String → String) (input_password hashed_password : String) : Bool :=
  hashFn input_password == hashed_password

/-- Python `s.startswith(pre)`, computed on the underlying character lists. -/
def startswith (s pre : String) : Bool :=
  pre.data.isPrefixOf s.data

/-- Python `s.split(sep)` on character lists: split at every occurrence of
the separator, keeping empty pieces (so `"a  b".split(" ") = ["a","","b"]`). -/
def splitCharsOn (sep : Char) : List Char → List (List Char)
  | [] => [[]]
  | c :: cs =>
    let r := splitCharsOn sep cs
    if c == sep then [] :: r
    else
      match r with
      | [] => [[c]]
      | h :: t => (c :: h) :: t

/-- Python `s.split(" ")`. -/
def splitSpace (s : String) : List String :=
  (splitCharsOn ' ' s.data).map String.mk

/-- `authorization.split(" ")[1]`: the second space-separated word. -/
def extract_token (authorization : String) : String :=
  (splitSpace authorization).getD 1 ""

/-- The `db.find` query of `get_current_user`: first user document whose
`session_token` equals the presented token. -/
def findUserByToken (db : DB) (token : String) : Option (String × UserDoc) :=
  (db.find? (fun p => match p.2 with
    | .user u => u.session_token == token
    | .task _ => false)).bind
    (fun p => match p.2 with
      | .user u => some (p.1, u)
      | .task _ => none)

/-- `get_current_user`: reject a missing or malformed authorization header
with 401; otherwise look the token up.  When no user matches, the
`HTTPException(401)` raised inside the `try` block is swallowed by the
blanket `except Exception` clause, which returns a fabricated identity
built from the raw token instead. -/
def get_current_user (authorization : Option String) (db : DB) : Except Err Identity :=
  match authorization with
  | none => .error .unauthenticated
  | some auth =>
    if startswith auth "Bearer " then
      let token := extract_token auth
      match findUserByToken db token with
      | some (docId, u) => .ok ⟨u.email, docId, u.username⟩
      | none => .ok ⟨token, "user_" ++ token, "User"⟩
    else .error .unauthenticated

/-- The user document `register` builds and saves. -/
def registered_user_doc (hashFn : String → String) (user : UserRegister)
    (session_token now : String) : UserDoc :=
  { email := user.email, username := user.username,
    password_hash := hashFn user.password, session_token := session_token,
    created_at := now, tasks := [] }

/-- `POST /api/register`.  `session_token` is the fresh `uuid.uuid4()`,
`now` the `datetime.utcnow().isoformat()` timestamp. -/
def register (hashFn : String → String) (user : UserRegister) (session_token now : String)
    (db : DB) : Except Err String × DB :=
  let user_id := "user_" ++ user.email
  if dbMem db user_id then (.error .duplicateEmail, db)
  else
    let user_doc := registered_user_doc hashFn user session_token now
    (.ok user_id, dbSave db user_id (.user user_doc))

/-- `POST /api/login`.  `fresh_token` is the new `uuid.uuid4()` session
token; on success it overwrites the stored one.  Reading `password_hash`
out of a non-user document would raise a `KeyError`, surfaced as 500. -/
def login (hashFn : String → String) (user : UserLogin) (fresh_token : String)
    (db : DB) : Except Err String × DB :=
  let user_id := "user_" ++ user.email
  match dbGet db user_id with
  | none => (.error .userNotFound, db)
  | some (.task _) => (.error .storage, db)
  | some (.user u) =>
    if verify_password hashFn user.password u.password_hash then
      (.ok fresh_token, dbSave db user_id (.user { u with session_token := fresh_token }))
    else (.error .invalidPassword, db)

/-- The task document `create_task` builds and saves: `completed` is
always `False` (the request body has no such field) and both timestamps
are the same `datetime.utcnow().isoformat()` value. -/
def created_task_doc (task : TaskCreate) (user_email timestamp : String) : TaskDoc :=
  { user_email := user_email, title := task.title, category := task.category,
    date := task.date, time := task.time, notes := task.notes,
    completed := false, created_at := timestamp, updated_at := timestamp }

/-- `POST /api/tasks`.  `task_uuid` is the fresh `uuid.uuid4()`; saving a
document whose id already exists raises a CouchDB conflict, surfaced as
500.  After saving the task, the owner's denormalized `tasks` list is
appended to when the owner's user document exists. -/
def create_task (task : TaskCreate) (current_user : Identity) (task_uuid timestamp : String)
    (db : DB) : Except Err (String × TaskDoc) × DB :=
  let user_email := current_user.email
  let task_id := "task_" ++ task_uuid
  if dbMem db task_id then (.error .storage, db)
  else
    let task_doc := created_task_doc task user_email timestamp
    let db1 := dbSave db task_id (.task task_doc)
    let user_id := "user_" ++ user_email
    let db2 := match dbGet db1 user_id with
      | some (.user u) => dbSave db1 user_id (.user { u with tasks := u.tasks ++ [task_id] })
      | _ => db1
    (.ok (task_id, task_doc), db2)

/-- The sort order of `GET /api/tasks`: `created_at` descending. -/
def byCreatedAtDesc (a b : String × TaskDoc) : Prop :=
  b.2.created_at ≤ a.2.created_at

instance : DecidableRel byCreatedAtDesc := fun a b =>
  inferInstanceAs (Decidable (b.2.created_at ≤ a.2.created_at))

/-- `GET /api/tasks`: all task documents whose `user_email` equals the
requester's email, sorted by `created_at` descending.  Python's
`list.sort(key=..., reverse=True)` is stable, and for a total preorder
key every stable sort computes the same list, so a stable insertion sort
models it faithfully. -/
def get_user_tasks (current_user : Identity) (db : DB) : List (String × TaskDoc) :=
  let tasks := db.filterMap (fun p => match p.2 with
    | .task t => if t.user_email == current_user.email then some (p.1, t) else none
    | .user _ => none)
  tasks.insertionSort byCreatedAtDesc

/-- `PUT /api/tasks/{task_id}`.  404 when the id is absent from the
database; 403 when `task_doc.get("user_email")` differs from the
requester's email (for a user document that `get` is `None`, hence 403).
Only fields present in the body overwrite; `updated_at` is refreshed. -/
def update_task (task_id : String) (task_update : TaskUpdate) (current_user : Identity)
    (now : String) (db : DB) : Except Err TaskDoc × DB :=
  let user_email := current_user.email
  match dbGet db task_id with
  | none => (.error .taskNotFound, db)
  | some (.user _) => (.error .forbidden, db)
  | some (.task t) =>
    if t.user_email ≠ user_email then (.error .forbidden, db)
    else
      let t' : TaskDoc :=
        { t with
          title := task_update.title.getD t.title,
          category := task_update.category.getD t.category,
          date := match task_update.date with | some v => some v | none => t.date,
          time := match task_update.time with | some v => some v | none => t.time,
          notes := match task_update.notes with | some v => some v | none => t.notes,
          completed := task_update.completed.getD t.completed,
          updated_at := now }
      (.ok t', dbSave db task_id (.task t'))

/-- `DELETE /api/tasks/{task_id}`: same not-found/forbidden checks as
update; deletes the task document, then removes the id from the owner's
denormalized `tasks` list when present (`list.remove`: first occurrence). -/
def delete_task (task_id : String) (current_user : Identity) (db : DB) :
    Except Err Unit × DB :=
  let user_email := current_user.email
  match dbGet db task_id with
  | none => (.error .taskNotFound, db)
  | some (.user _) => (.error .forbidden, db)
  | some (.task t) =>
    if t.user_email ≠ user_email then (.error .forbidden, db)
    else
      let db1 := dbDelete db task_id
      let user_id := "user_" ++ user_email
      let db2 := match dbGet db1 user_id with
        | some (.user u) =>
          if task_id ∈ u.tasks then
            dbSave db1 user_id (.user { u with tasks := u.tasks.erase task_id })
          else db1
        | _ => db1
      (.ok (), db2)

/-- A state-changing request to the backend, with its nondeterministic
inputs (fresh tokens, uuids, timestamps) made explicit. -/
inductive Op where
  | opRegister (u : UserRegister) (tok now : String)
  | opLogin (u : UserLogin) (tok : String)
  | opCreateTask (task : TaskCreate) (cur : Identity) (uuid now : String)
  | opUpdateTask (task_id : String) (upd : TaskUpdate) (cur : Identity) (now : String)
  | opDeleteTask (task_id : String) (cur : Identity)
deriving Repr

/-- The database produced by running one request against `db`. -/
def applyOp (hashFn : String → String) (op : Op) (db : DB) : DB :=
  match op with
  | .opRegister u tok now => (register hashFn u tok now db).2
  | .opLogin u tok => (login hashFn u tok db).2
  | .opCreateTask task cur uuid now => (create_task task cur uuid now db).2
  | .opUpdateTask task_id upd cur now => (update_task task_id upd cur now db).2
  | .opDeleteTask task_id cur => (delete_task task_id cur db).2

/-- Sample digest function standing in for SHA-256 in concrete evaluations. -/
def sampleHash : String → String := fun s => s ++ "#sha256"

/-- Sample stored user, for concrete evaluations. -/
def aliceUser : UserDoc :=
  { email := "a@x", username := "Alice", password_hash := "pw1#sha256",
    session_token := "tokA", created_at := "2024-01-01T00:00:00",
    tasks := ["task_1", "task_2"] }

/-- Sample stored task owned by `aliceUser`. -/
def aliceTask : TaskDoc :=
  { user_email := "a@x", title := "Buy milk", category := "Дом",
    date := none, time := none, notes := none, completed := false,
    created_at := "2024-01-01T10:00:00", updated_at := "2024-01-01T10:00:00" }

/-- A second sample task owned by `aliceUser`, created later. -/
def aliceTask2 : TaskDoc :=
  { user_email := "a@x", title := "Walk dog", category := "Дом",
    date := none, time := none, notes := none, completed := false,
    created_at := "2024-01-02T10:00:00", updated_at := "2024-01-02T10:00:00" }

/-- Sample second stored user, owning no tasks. -/
def bobUser : UserDoc :=
  { email := "b@x", username := "Bob", password_hash := "pw2#sha256",
    session_token := "tokB", created_at := "2024-01-01T00:00:00", tasks := [] }

/-- Sample database holding two users and two tasks. -/
def sampleDb : DB :=
  [("user_a@x", .user aliceUser), ("task_1", .task aliceTask),
   ("task_2", .task aliceTask2), ("user_b@x", .user bobUser)]

/-- The identity `get_current_user` resolves for `aliceUser`. -/
def aliceId : Identity := ⟨"a@x", "user_a@x", "Alice"⟩

/-- The identity `get_current_user` resolves for `bobUser`. -/
def bobId : Identity := ⟨"b@x", "user_b@x", "Bob"⟩

end AuthBackend

namespace AuthBackend

theorem dbGet_dbSave_self (db : DB) (id : String) (d : Doc) :
    dbGet (dbSave db id d) id = some d := by
  unfold dbSave
  by_cases hmem : dbMem db id = true
  · rw [if_pos hmem]
    unfold dbGet
    rw [List.find?_map]
    have hpred : ((fun p : String × Doc => p.1 == id) ∘
        (fun p => if p.1 == id then (id, d) else p)) =
        (fun p : String × Doc => p.1 == id) := by
      funext x
      by_cases hxe : x.1 = id <;> simp [Function.comp, hxe]
    rw [hpred]
    unfold dbMem dbGet at hmem
    cases hfind : List.find? (fun p : String × Doc => p.1 == id) db with
    | none => rw [hfind] at hmem; simp at hmem
    | some q =>
      have hq := List.find?_some hfind
      simp only [beq_iff_eq] at hq
      simp [hq]
  · rw [if_neg hmem]
    unfold dbMem dbGet at hmem
    cases hfind : List.find? (fun p : String × Doc => p.1 == id) db with
    | some q => rw [hfind] at hmem; simp at hmem
    | none =>
      unfold dbGet
      rw [List.find?_append, hfind]
      simp [List.find?]

theorem dbGet_dbSave_ne (db : DB) (id k : String) (d : Doc) (h : k ≠ id) :
    dbGet (dbSave db id d) k = dbGet db k := by
  unfold dbSave
  by_cases hmem : dbMem db id = true
  · rw [if_pos hmem]
    unfold dbGet
    rw [List.find?_map]
    have hpred : ((fun p : String × Doc => p.1 == k) ∘
        (fun p => if p.1 == id then (id, d) else p)) =
        (fun p : String × Doc => p.1 == k) := by
      funext x
      by_cases hxe : x.1 = id
      · simp [Function.comp, hxe, Ne.symm h]
      · simp [Function.comp, hxe]
    rw [hpred]
    cases hfind : List.find? (fun p : String × Doc => p.1 == k) db with
    | none => simp
    | some q =>
      have hq := List.find?_some hfind
      simp only [beq_iff_eq] at hq
      simp [hq, h]
  · rw [if_neg hmem]
    unfold dbGet
    rw [List.find?_append]
    have hik : ((id : String) == k) = false := by
      simp only [beq_eq_false_iff_ne, ne_eq]
      exact fun hh => h hh.symm
    simp [List.find?, hik]

theorem dbGet_dbDelete_self (db : DB) (id : String) :
    dbGet (dbDelete db id) id = none := by
  unfold dbDelete dbGet
  have hnone : List.find? (fun p : String × Doc => p.1 == id)
      (db.filter (fun p => p.1 != id)) = none := by
    rw [List.find?_eq_none]
    intro x hx
    have hmem := (List.mem_filter.mp hx).2
    simp only [bne_iff_ne, ne_eq] at hmem
    simp [hmem]
  rw [hnone]
  rfl

theorem dbGet_dbDelete_ne (db : DB) (id k : String) (h : k ≠ id) :
    dbGet (dbDelete db id) k = dbGet db k := by
  unfold dbDelete dbGet
  have hfind : List.find? (fun p : String × Doc => p.1 == k)
      (db.filter (fun p => p.1 != id)) =
      List.find? (fun p : String × Doc => p.1 == k) db := by
    induction db with
    | nil => rfl
    | cons p ps ih =>
      rw [List.filter_cons]
      by_cases hpe : p.1 = id
      · rw [if_neg (by simp [hpe])]
        rw [ih]
        have hbk : (p.1 == k) = false := by
          simp [hpe]
          exact fun hh => h hh.symm
        simp only [List.find?, hbk]
      · rw [if_pos (by simp [hpe])]
        by_cases hk : p.1 = k
        · have hbk : (p.1 == k) = true := by simp [hk]
          simp only [List.find?, hbk]
        · have hbk : (p.1 == k) = false := by simp [hk]
          simp only [List.find?, hbk]
          exact ih
  rw [hfind]

end AuthBackend

namespace AuthBackend

instance : IsTotal (String × TaskDoc) byCreatedAtDesc :=
  ⟨fun a b => le_total b.2.created_at a.2.created_at⟩

instance : IsTrans (String × TaskDoc) byCreatedAtDesc :=
  ⟨fun _ _ _ hab hbc => le_trans hbc hab⟩

theorem mem_get_user_tasks (cur : Identity) (db : DB) (id : String) (t : TaskDoc) :
    (id, t) ∈ get_user_tasks cur db ↔
      ((id, Doc.task t) ∈ db ∧ t.user_email = cur.email) := by
  unfold get_user_tasks
  rw [(List.perm_insertionSort byCreatedAtDesc _).mem_iff]
  rw [List.mem_filterMap]
  constructor
  · rintro ⟨⟨id', doc⟩, hin, hf⟩
    cases doc with
    | user u => simp at hf
    | task t' =>
      by_cases he : t'.user_email = cur.email
      · simp [he] at hf
        obtain ⟨h1, h2⟩ := hf
        subst h1
        cases h2
        exact ⟨hin, he⟩
      · simp [he] at hf
  · rintro ⟨hin, he⟩
    exact ⟨(id, Doc.task t), hin, by simp [he]⟩

theorem sorted_get_user_tasks (cur : Identity) (db : DB) :
    List.Sorted byCreatedAtDesc (get_user_tasks cur db) :=
  List.sorted_insertionSort byCreatedAtDesc _

theorem mem_dbSave {db : DB} {id : String} {d : Doc} {q : String × Doc}
    (h : q ∈ dbSave db id d) : q.1 = id ∨ q ∈ db := by
  unfold dbSave at h
  by_cases hmem : dbMem db id = true
  · rw [if_pos hmem] at h
    obtain ⟨p, hp, hfp⟩ := List.mem_map.mp h
    by_cases hpe : (p.1 == id) = true
    · rw [if_pos hpe] at hfp
      left
      rw [← hfp]
    · have hpe' : ¬((p.1 == id) = true) := hpe
      rw [if_neg hpe'] at hfp
      right
      rw [← hfp]
      exact hp
  · rw [if_neg hmem] at h
    rcases List.mem_append.mp h with h1 | h2
    · right; exact h1
    · left
      have : q = (id, d) := by simpa using h2
      rw [this]

theorem mem_dbDelete {db : DB} {id : String} {q : String × Doc}
    (h : q ∈ dbDelete db id) : q ∈ db ∧ q.1 ≠ id := by
  unfold dbDelete at h
  obtain ⟨h1, h2⟩ := List.mem_filter.mp h
  refine ⟨h1, ?_⟩
  simpa using h2

theorem user_id_ne_task_id (a b : String) : "user_" ++ a ≠ "task_" ++ b := by
  intro h
  have hd := congrArg String.data h
  simp [String.data_append] at hd

end AuthBackend

namespace AuthBackend

/-- C1: the spec requires a well-formed bearer token that matches no stored
`session_token` to fail as unauthenticated (`InvalidToken`, 401), never
synthesizing an identity from the raw token.  The code violates this: the
401 it raises for an unknown token is swallowed by its own blanket
`except Exception` clause, and the fabricated identity
`{email: token, user_id: "user_" ++ token, username: "User"}` is returned
instead, shown here on the concrete failing input. -/
theorem get_current_user_unknown_token_fallback :
    findUserByToken [] "tok123" = none ∧
    get_current_user (some "Bearer tok123") [] =
      Except.ok ⟨"tok123", "user_tok123", "User"⟩ := by
  decide

/-- C2: whenever the authorization header is present and starts with the
literal prefix `"Bearer "`, `get_current_user` never fails (no 401); in
particular when the extracted token matches no stored `session_token` it
returns the fabricated identity `{email: token, user_id: "user_" ++ token,
username: "User"}`. -/
theorem get_current_user_accepts_any_bearer (auth : String) (db : DB)
    (h : startswith auth "Bearer " = true) :
    (get_current_user (some auth) db).isOk = true ∧
    (findUserByToken db (extract_token auth) = none →
      get_current_user (some auth) db =
        Except.ok ⟨extract_token auth, "user_" ++ extract_token auth, "User"⟩) := by
  simp only [get_current_user]
  rw [if_pos h]
  constructor
  · cases hf : findUserByToken db (extract_token auth) with
    | some p =>
      cases p with
      | mk docId u => simp [hf, Except.isOk, Except.toBool]
    | none => simp [hf, Except.isOk, Except.toBool]
  · intro hf
    simp [hf]

theorem get_current_user_accepts_any_bearer_witness :
    (get_current_user (some "Bearer abc") []).isOk = true ∧
    get_current_user (some "Bearer abc") [] =
      Except.ok ⟨"abc", "user_abc", "User"⟩ := by
  refine ⟨(get_current_user_accepts_any_bearer "Bearer abc" [] (by decide)).1, ?_⟩
  have h2 := (get_current_user_accepts_any_bearer "Bearer abc" [] (by decide)).2 (by decide)
  have he : extract_token "Bearer abc" = "abc" := by decide
  rw [he] at h2
  exact h2

/-- C3: `GET /api/tasks` returns exactly the stored tasks whose
`user_email` equals the requester's email, ordered by `created_at`
descending; a task owned by a different user is never included. -/
theorem get_user_tasks_exactly_owned_sorted (cur : Identity) (db : DB) :
    (∀ id t, (id, t) ∈ get_user_tasks cur db ↔
      ((id, Doc.task t) ∈ db ∧ t.user_email = cur.email)) ∧
    List.Sorted byCreatedAtDesc (get_user_tasks cur db) ∧
    (∀ id t, t.user_email ≠ cur.email → (id, t) ∉ get_user_tasks cur db) := by
  refine ⟨mem_get_user_tasks cur db, sorted_get_user_tasks cur db, ?_⟩
  intro id t hne hmem'
  exact hne ((mem_get_user_tasks cur db id t).mp hmem').2

theorem get_user_tasks_exactly_owned_sorted_witness :
    List.Sorted byCreatedAtDesc (get_user_tasks aliceId sampleDb) ∧
    ("task_1", aliceTask) ∈ get_user_tasks aliceId sampleDb :=
  ⟨(get_user_tasks_exactly_owned_sorted aliceId sampleDb).2.1,
   (mem_get_user_tasks aliceId sampleDb "task_1" aliceTask).mpr (by decide)⟩

end AuthBackend

namespace AuthBackend

/-- C4: updating an existing task as its owner succeeds, and only the
fields explicitly supplied in the partial body overwrite stored values:
every omitted field keeps its stored value, `updated_at` is always
refreshed to the new timestamp, and `created_at` and `user_email` are
untouched; with an empty partial every content field is unchanged while
`updated_at` is still refreshed. -/
theorem update_task_partial_semantics (task_id : String) (upd : TaskUpdate)
    (cur : Identity) (now : String) (db : DB) (t : TaskDoc)
    (hget : dbGet db task_id = some (Doc.task t))
    (hown : t.user_email = cur.email) :
    ∃ t', (update_task task_id upd cur now db).1 = Except.ok t' ∧
      dbGet (update_task task_id upd cur now db).2 task_id = some (Doc.task t') ∧
      t'.updated_at = now ∧
      t'.created_at = t.created_at ∧
      t'.user_email = t.user_email ∧
      (upd.title = none → t'.title = t.title) ∧
      (∀ v, upd.title = some v → t'.title = v) ∧
      (upd.category = none → t'.category = t.category) ∧
      (∀ v, upd.category = some v → t'.category = v) ∧
      (upd.date = none → t'.date = t.date) ∧
      (∀ v, upd.date = some v → t'.date = some v) ∧
      (upd.time = none → t'.time = t.time) ∧
      (∀ v, upd.time = some v → t'.time = some v) ∧
      (upd.notes = none → t'.notes = t.notes) ∧
      (∀ v, upd.notes = some v → t'.notes = some v) ∧
      (upd.completed = none → t'.completed = t.completed) ∧
      (∀ v, upd.completed = some v → t'.completed = v) ∧
      (upd = {} → t'.title = t.title ∧ t'.category = t.category ∧
        t'.date = t.date ∧ t'.time = t.time ∧ t'.notes = t.notes ∧
        t'.completed = t.completed ∧ t'.updated_at = now) := by
  simp only [update_task, hget]
  rw [if_neg (not_not_intro hown)]
  refine ⟨_, rfl, dbGet_dbSave_self _ _ _, rfl, rfl, rfl, ?_, ?_, ?_, ?_, ?_, ?_, ?_, ?_,
    ?_, ?_, ?_, ?_, ?_⟩
  · intro h; simp [h]
  · intro v h; simp [h]
  · intro h; simp [h]
  · intro v h; simp [h]
  · intro h; simp [h]
  · intro v h; simp [h]
  · intro h; simp [h]
  · intro v h; simp [h]
  · intro h; simp [h]
  · intro v h; simp [h]
  · intro h; simp [h]
  · intro v h; simp [h]
  · intro h
    rw [h]
    simp

theorem update_task_partial_semantics_witness :
    ∃ t', (update_task "task_1" {} aliceId "2024-02-01T00:00:00" sampleDb).1 = Except.ok t' ∧
      t'.updated_at = "2024-02-01T00:00:00" ∧ t'.title = aliceTask.title ∧
      t'.completed = aliceTask.completed := by
  obtain ⟨t', h1, _, h3, _, _, _, _, _, _, _, _, _, _, _, _, _, _, hemp⟩ :=
    update_task_partial_semantics "task_1" {} aliceId "2024-02-01T00:00:00" sampleDb
      aliceTask (by decide) (by decide)
  obtain ⟨ht, _, _, _, _, hc, _⟩ := hemp rfl
  exact ⟨t', h1, h3, ht, hc⟩

end AuthBackend

namespace AuthBackend

/-- C5 counterexample: the database holds only the user document
`user_a@x`, so no task with id `"user_a@x"` exists; the claim demands
`TaskNotFound` (404) for an update/delete on that id, but both operations
fail with `Forbidden` (403) instead — the not-found check `task_id not in
db` consults the whole document store, the id is present as a user
document, and `task_doc.get("user_email")` on it yields `None ≠ email`. -/
theorem update_delete_user_doc_forbidden_counterexample :
    dbGet [("user_a@x", Doc.user aliceUser)] "user_a@x" = some (Doc.user aliceUser) ∧
    (update_task "user_a@x" {} bobId "2024-02-01T00:00:00"
      [("user_a@x", Doc.user aliceUser)]).1 = Except.error Err.forbidden ∧
    (delete_task "user_a@x" bobId [("user_a@x", Doc.user aliceUser)]).1 =
      Except.error Err.forbidden ∧
    Err.forbidden ≠ Err.taskNotFound := by
  decide

/-- C5 (amended): for update and delete, an id absent from the document
store fails with `TaskNotFound` (404); an id present as a task with a
different owner — or present as a non-task document, whose
`get("user_email")` is `None` — fails with `Forbidden` (403); in every
failure case the store is returned unchanged. -/
theorem update_delete_not_found_forbidden (task_id : String) (upd : TaskUpdate)
    (cur : Identity) (now : String) (db : DB) :
    (dbGet db task_id = none →
      update_task task_id upd cur now db = (Except.error Err.taskNotFound, db) ∧
      delete_task task_id cur db = (Except.error Err.taskNotFound, db)) ∧
    (∀ t : TaskDoc, dbGet db task_id = some (Doc.task t) → t.user_email ≠ cur.email →
      update_task task_id upd cur now db = (Except.error Err.forbidden, db) ∧
      delete_task task_id cur db = (Except.error Err.forbidden, db)) ∧
    (∀ u : UserDoc, dbGet db task_id = some (Doc.user u) →
      update_task task_id upd cur now db = (Except.error Err.forbidden, db) ∧
      delete_task task_id cur db = (Except.error Err.forbidden, db)) ∧
    Err.taskNotFound.status = 404 ∧ Err.forbidden.status = 403 := by
  refine ⟨?_, ?_, ?_, rfl, rfl⟩
  · intro h
    constructor
    · simp only [update_task, h]
    · simp only [delete_task, h]
  · intro t h hne
    constructor
    · simp only [update_task, h]
      rw [if_pos hne]
    · simp only [delete_task, h]
      rw [if_pos hne]
  · intro u h
    constructor
    · simp only [update_task, h]
    · simp only [delete_task, h]

theorem update_delete_not_found_forbidden_witness :
    (update_task "task_9" {} aliceId "2024-02-01T00:00:00" sampleDb =
      (Except.error Err.taskNotFound, sampleDb)) ∧
    (update_task "task_1" {} bobId "2024-02-01T00:00:00" sampleDb =
      (Except.error Err.forbidden, sampleDb)) := by
  refine ⟨((update_delete_not_found_forbidden "task_9" {} aliceId
    "2024-02-01T00:00:00" sampleDb).1 (by decide)).1, ?_⟩
  exact ((update_delete_not_found_forbidden "task_1" {} bobId
    "2024-02-01T00:00:00" sampleDb).2.1 aliceTask (by decide) (by decide)).1

end AuthBackend

namespace AuthBackend

/-- C6: registering a second time with an email that already has a user
document fails with `DuplicateEmail` (HTTP 400) and returns the store
unchanged, so the first user's record (password hash, username, session
token, task list) is unaffected by the failed attempt. -/
theorem register_duplicate_email (hashFn : String → String) (u1 u2 : UserRegister)
    (tok1 now1 tok2 now2 : String) (db db1 : DB) (uid : String)
    (hemail : u2.email = u1.email)
    (h1 : register hashFn u1 tok1 now1 db = (Except.ok uid, db1)) :
    register hashFn u2 tok2 now2 db1 = (Except.error Err.duplicateEmail, db1) ∧
    dbGet db1 ("user_" ++ u1.email) =
      some (.user (registered_user_doc hashFn u1 tok1 now1)) ∧
    Err.duplicateEmail.status = 400 := by
  simp only [register] at h1
  by_cases hmem : dbMem db ("user_" ++ u1.email) = true
  · rw [if_pos hmem] at h1
    exact absurd (congrArg Prod.fst h1) (by simp)
  · rw [if_neg hmem] at h1
    have hdb1 : db1 = dbSave db ("user_" ++ u1.email)
        (.user (registered_user_doc hashFn u1 tok1 now1)) :=
      (congrArg Prod.snd h1).symm
    have hget : dbGet db1 ("user_" ++ u1.email) =
        some (.user (registered_user_doc hashFn u1 tok1 now1)) := by
      rw [hdb1]
      exact dbGet_dbSave_self _ _ _
    refine ⟨?_, hget, rfl⟩
    simp only [register, hemail]
    rw [if_pos (by simp [dbMem, hget])]

theorem register_duplicate_email_witness :
    register sampleHash ⟨"c@x", "pw9", "Cloe2"⟩ "tok2" "t2"
        (register sampleHash ⟨"c@x", "pw3", "Cloe"⟩ "tok1" "t1" []).2 =
      (Except.error Err.duplicateEmail,
        (register sampleHash ⟨"c@x", "pw3", "Cloe"⟩ "tok1" "t1" []).2) :=
  (register_duplicate_email sampleHash ⟨"c@x", "pw3", "Cloe"⟩ ⟨"c@x", "pw9", "Cloe2"⟩
    "tok1" "t1" "tok2" "t2" [] _ "user_c@x" rfl (by decide)).1

end AuthBackend

namespace AuthBackend

/-- C7: login fails with `UserNotFound` (401) when no user document exists
for the email and with `InvalidPassword` (401) when the hash of the
presented password differs from the stored hash, both times returning the
store unchanged (no token issued); a successful login returns the fresh
token and overwrites the stored `session_token` with it, leaving every
other field of the user record as it was. -/
theorem login_semantics (hashFn : String → String) (u : UserLogin) (tok : String) (db : DB) :
    (dbGet db ("user_" ++ u.email) = none →
      login hashFn u tok db = (Except.error Err.userNotFound, db)) ∧
    (∀ udoc : UserDoc, dbGet db ("user_" ++ u.email) = some (.user udoc) →
      hashFn u.password ≠ udoc.password_hash →
      login hashFn u tok db = (Except.error Err.invalidPassword, db)) ∧
    (∀ udoc : UserDoc, dbGet db ("user_" ++ u.email) = some (.user udoc) →
      hashFn u.password = udoc.password_hash →
      (login hashFn u tok db).1 = Except.ok tok ∧
      dbGet (login hashFn u tok db).2 ("user_" ++ u.email) =
        some (.user { udoc with session_token := tok })) ∧
    Err.userNotFound.status = 401 ∧ Err.invalidPassword.status = 401 := by
  refine ⟨?_, ?_, ?_, rfl, rfl⟩
  · intro h
    simp only [login, h]
  · intro udoc h hne
    simp only [login, h]
    rw [if_neg (by simp [verify_password, hne])]
  · intro udoc h heq
    simp only [login, h]
    rw [if_pos (by simp [verify_password, heq])]
    exact ⟨rfl, dbGet_dbSave_self _ _ _⟩

theorem login_semantics_witness :
    (login sampleHash ⟨"z@x", "pw"⟩ "tokZ" sampleDb =
      (Except.error Err.userNotFound, sampleDb)) ∧
    (login sampleHash ⟨"a@x", "wrong"⟩ "tokN" sampleDb =
      (Except.error Err.invalidPassword, sampleDb)) ∧
    (login sampleHash ⟨"a@x", "pw1"⟩ "tokNew" sampleDb).1 = Except.ok "tokNew" ∧
    dbGet (login sampleHash ⟨"a@x", "pw1"⟩ "tokNew" sampleDb).2 "user_a@x" =
      some (.user { aliceUser with session_token := "tokNew" }) := by
  refine ⟨(login_semantics sampleHash ⟨"z@x", "pw"⟩ "tokZ" sampleDb).1 (by decide), ?_, ?_⟩
  · exact (login_semantics sampleHash ⟨"a@x", "wrong"⟩ "tokN" sampleDb).2.1
      aliceUser (by decide) (by decide)
  · exact (login_semantics sampleHash ⟨"a@x", "pw1"⟩ "tokNew" sampleDb).2.2.1
      aliceUser (by decide) (by decide)

end AuthBackend

namespace AuthBackend

/-- C8: creating a task stores `created_task_doc`: `completed = false`
regardless of input (the request body has no completed field at all), both
timestamps stamped with the identical value, under the freshly generated
id `"task_" ++ uuid`, which must not collide with an existing document. -/
theorem create_task_semantics (task : TaskCreate) (cur : Identity) (uuid now : String)
    (db : DB) (hfresh : dbMem db ("task_" ++ uuid) = false) :
    (create_task task cur uuid now db).1 =
      Except.ok ("task_" ++ uuid, created_task_doc task cur.email now) ∧
    (created_task_doc task cur.email now).completed = false ∧
    (created_task_doc task cur.email now).created_at = now ∧
    (created_task_doc task cur.email now).updated_at = now ∧
    dbGet (create_task task cur uuid now db).2 ("task_" ++ uuid) =
      some (.task (created_task_doc task cur.email now)) := by
  simp only [create_task]
  rw [if_neg (by simp [hfresh])]
  refine ⟨rfl, rfl, rfl, rfl, ?_⟩
  cases hu : dbGet (dbSave db ("task_" ++ uuid)
      (.task (created_task_doc task cur.email now))) ("user_" ++ cur.email) with
  | none => simp only [hu]; exact dbGet_dbSave_self _ _ _
  | some d =>
    cases d with
    | user u =>
      simp only [hu]
      rw [dbGet_dbSave_ne _ _ _ _ (Ne.symm (user_id_ne_task_id cur.email uuid))]
      exact dbGet_dbSave_self _ _ _
    | task t0 => simp only [hu]; exact dbGet_dbSave_self _ _ _

theorem create_task_semantics_witness :
    (create_task { title := "Buy milk" } aliceId "9" "2024-03-01T00:00:00" sampleDb).1 =
      Except.ok ("task_9", created_task_doc { title := "Buy milk" } "a@x" "2024-03-01T00:00:00") ∧
    (created_task_doc { title := "Buy milk" } "a@x" "2024-03-01T00:00:00").completed = false :=
  ⟨(create_task_semantics { title := "Buy milk" } aliceId "9" "2024-03-01T00:00:00"
      sampleDb (by decide)).1,
   (create_task_semantics { title := "Buy milk" } aliceId "9" "2024-03-01T00:00:00"
      sampleDb (by decide)).2.1⟩

end AuthBackend

namespace AuthBackend

theorem not_mem_of_dbGet_none {db : DB} {k : String} (h : dbGet db k = none) (d : Doc) :
    (k, d) ∉ db := by
  intro hmem
  unfold dbGet at h
  rw [Option.map_eq_none'] at h
  have := List.find?_eq_none.mp h (k, d) hmem
  simp at this

/-- C9: deleting a task as its owner removes the task document from the
store, rewrites the owner's denormalized `tasks` list to that list with
the id erased (`list.remove`; when the stored list has no duplicates the
id therefore no longer appears in it), and a subsequent `GET /api/tasks`
for that owner no longer returns any entry with the deleted id. -/
theorem delete_task_removes (task_id : String) (cur : Identity) (db : DB) (t : TaskDoc)
    (hget : dbGet db task_id = some (Doc.task t))
    (hown : t.user_email = cur.email) :
    (delete_task task_id cur db).1 = Except.ok () ∧
    dbGet (delete_task task_id cur db).2 task_id = none ∧
    (∀ u : UserDoc, dbGet db ("user_" ++ cur.email) = some (.user u) →
      dbGet (delete_task task_id cur db).2 ("user_" ++ cur.email) =
        some (.user { u with tasks := u.tasks.erase task_id }) ∧
      (u.tasks.Nodup → task_id ∉ u.tasks.erase task_id)) ∧
    (∀ p ∈ get_user_tasks cur (delete_task task_id cur db).2, p.1 ≠ task_id) := by
  simp only [delete_task, hget]
  rw [if_neg (not_not_intro hown)]
  cases hu : dbGet (dbDelete db task_id) ("user_" ++ cur.email) with
  | none =>
    simp only [hu]
    have hnone : dbGet (dbDelete db task_id) task_id = none := dbGet_dbDelete_self db task_id
    refine ⟨trivial, hnone, ?_, ?_⟩
    · intro u hudb
      have hneu : ("user_" ++ cur.email) ≠ task_id := by
        intro he
        rw [he, hget] at hudb
        exact Doc.noConfusion (Option.some.inj hudb)
      rw [dbGet_dbDelete_ne db task_id _ hneu, hudb] at hu
      exact absurd hu (by simp)
    · intro p hp heq
      have hin := ((mem_get_user_tasks cur _ p.1 p.2).mp hp).1
      rw [heq] at hin
      exact not_mem_of_dbGet_none hnone _ hin
  | some d =>
    cases d with
    | task t0 =>
      simp only [hu]
      have hnone : dbGet (dbDelete db task_id) task_id = none := dbGet_dbDelete_self db task_id
      refine ⟨trivial, hnone, ?_, ?_⟩
      · intro u hudb
        have hneu : ("user_" ++ cur.email) ≠ task_id := by
          intro he
          rw [he, hget] at hudb
          exact Doc.noConfusion (Option.some.inj hudb)
        rw [dbGet_dbDelete_ne db task_id _ hneu, hudb] at hu
        exact absurd hu (by simp)
      · intro p hp heq
        have hin := ((mem_get_user_tasks cur _ p.1 p.2).mp hp).1
        rw [heq] at hin
        exact not_mem_of_dbGet_none hnone _ hin
    | user u0 =>
      simp only [hu]
      have hneu : ("user_" ++ cur.email) ≠ task_id := by
        intro he
        rw [he, dbGet_dbDelete_self] at hu
        exact Option.noConfusion hu
      by_cases hmemt : task_id ∈ u0.tasks
      · rw [if_pos hmemt]
        have hnone : dbGet (dbSave (dbDelete db task_id) ("user_" ++ cur.email)
            (.user { u0 with tasks := u0.tasks.erase task_id })) task_id = none := by
          rw [dbGet_dbSave_ne _ _ _ _ (Ne.symm hneu)]
          exact dbGet_dbDelete_self db task_id
        refine ⟨trivial, hnone, ?_, ?_⟩
        · intro u hudb
          rw [dbGet_dbDelete_ne db task_id _ hneu, hudb] at hu
          have hueq : u0 = u := by
            have := Option.some.inj hu
            exact (Doc.user.inj this).symm
          subst hueq
          exact ⟨dbGet_dbSave_self _ _ _, fun hnd => List.Nodup.not_mem_erase hnd⟩
        · intro p hp heq
          have hin := ((mem_get_user_tasks cur _ p.1 p.2).mp hp).1
          rw [heq] at hin
          exact not_mem_of_dbGet_none hnone _ hin
      · rw [if_neg hmemt]
        have hnone : dbGet (dbDelete db task_id) task_id = none := dbGet_dbDelete_self db task_id
        refine ⟨trivial, hnone, ?_, ?_⟩
        · intro u hudb
          rw [dbGet_dbDelete_ne db task_id _ hneu, hudb] at hu
          have hueq : u0 = u := by
            have := Option.some.inj hu
            exact (Doc.user.inj this).symm
          subst hueq
          rw [dbGet_dbDelete_ne db task_id _ hneu, hudb]
          rw [List.erase_of_not_mem hmemt]
          exact ⟨rfl, fun _ => hmemt⟩
        · intro p hp heq
          have hin := ((mem_get_user_tasks cur _ p.1 p.2).mp hp).1
          rw [heq] at hin
          exact not_mem_of_dbGet_none hnone _ hin

theorem delete_task_removes_witness :
    (delete_task "task_1" aliceId sampleDb).1 = Except.ok () ∧
    dbGet (delete_task "task_1" aliceId sampleDb).2 "task_1" = none ∧
    dbGet (delete_task "task_1" aliceId sampleDb).2 "user_a@x" =
      some (.user { aliceUser with tasks := ["task_2"] }) := by
  obtain ⟨h1, h2, h3, _⟩ :=
    delete_task_removes "task_1" aliceId sampleDb aliceTask (by decide) (by decide)
  obtain ⟨h3a, _⟩ := h3 aliceUser (by decide)
  refine ⟨h1, h2, ?_⟩
  have he : aliceUser.tasks.erase "task_1" = ["task_2"] := by decide
  rw [he] at h3a
  exact h3a

end AuthBackend

namespace AuthBackend

/-- C10: no exposed state-changing operation — register, login, task
creation, task update (whose accepted field set excludes `user_email`,
`id`, `type` and `created_at`), or task deletion — ever changes the
`user_email` of a task document that survives it: if a task is stored
under an id before the request and a task is stored under that id after
it, the owner is identical. -/
theorem task_user_email_immutable (hashFn : String → String) (op : Op) (db : DB)
    (id : String) (t t' : TaskDoc)
    (hbefore : dbGet db id = some (Doc.task t))
    (hafter : dbGet (applyOp hashFn op db) id = some (Doc.task t')) :
    t'.user_email = t.user_email := by
  cases op with
  | opRegister u tok now =>
    simp only [applyOp, register] at hafter
    by_cases hmem : dbMem db ("user_" ++ u.email) = true
    · rw [if_pos hmem] at hafter
      rw [hbefore] at hafter
      cases Option.some.inj hafter
      rfl
    · rw [if_neg hmem] at hafter
      by_cases hid : id = "user_" ++ u.email
      · rw [← hid] at hmem
        rw [dbMem, hbefore] at hmem
        simp at hmem
      · simp only [] at hafter
        rw [dbGet_dbSave_ne db _ id _ hid, hbefore] at hafter
        cases Option.some.inj hafter
        rfl
  | opLogin u tok =>
    simp only [applyOp, login] at hafter
    cases hud : dbGet db ("user_" ++ u.email) with
    | none =>
      rw [hud] at hafter
      simp only [] at hafter
      rw [hbefore] at hafter
      cases Option.some.inj hafter
      rfl
    | some d =>
      cases d with
      | task t0 =>
        rw [hud] at hafter
        simp only [] at hafter
        rw [hbefore] at hafter
        cases Option.some.inj hafter
        rfl
      | user u0 =>
        rw [hud] at hafter
        simp only [] at hafter
        by_cases hv : verify_password hashFn u.password u0.password_hash = true
        · rw [if_pos hv] at hafter
          have hid : id ≠ "user_" ++ u.email := by
            intro he
            rw [he, hud] at hbefore
            exact Doc.noConfusion (Option.some.inj hbefore)
          rw [dbGet_dbSave_ne db _ id _ hid, hbefore] at hafter
          cases Option.some.inj hafter
          rfl
        · rw [if_neg hv] at hafter
          rw [hbefore] at hafter
          cases Option.some.inj hafter
          rfl
  | opCreateTask task cur uuid now =>
    simp only [applyOp, create_task] at hafter
    by_cases hmem : dbMem db ("task_" ++ uuid) = true
    · rw [if_pos hmem] at hafter
      rw [hbefore] at hafter
      cases Option.some.inj hafter
      rfl
    · rw [if_neg hmem] at hafter
      have hid : id ≠ "task_" ++ uuid := by
        intro he
        rw [dbMem, ← he, hbefore] at hmem
        simp at hmem
      simp only [] at hafter
      cases hu : dbGet (dbSave db ("task_" ++ uuid)
          (.task (created_task_doc task cur.email now))) ("user_" ++ cur.email) with
      | none =>
        rw [hu] at hafter
        rw [dbGet_dbSave_ne db _ id _ hid, hbefore] at hafter
        cases Option.some.inj hafter
        rfl
      | some d =>
        cases d with
        | task t0 =>
          rw [hu] at hafter
          rw [dbGet_dbSave_ne db _ id _ hid, hbefore] at hafter
          cases Option.some.inj hafter
          rfl
        | user u0 =>
          rw [hu] at hafter
          have hid2 : id ≠ "user_" ++ cur.email := by
            intro he
            rw [← he] at hu
            rw [dbGet_dbSave_ne db _ id _ hid, hbefore] at hu
            exact Doc.noConfusion (Option.some.inj hu)
          rw [dbGet_dbSave_ne _ _ id _ hid2] at hafter
          rw [dbGet_dbSave_ne db _ id _ hid, hbefore] at hafter
          cases Option.some.inj hafter
          rfl
  | opUpdateTask task_id upd cur now =>
    simp only [applyOp, update_task] at hafter
    cases htd : dbGet db task_id with
    | none =>
      rw [htd] at hafter
      simp only [] at hafter
      rw [hbefore] at hafter
      cases Option.some.inj hafter
      rfl
    | some d =>
      cases d with
      | user u0 =>
        rw [htd] at hafter
        simp only [] at hafter
        rw [hbefore] at hafter
        cases Option.some.inj hafter
        rfl
      | task t0 =>
        rw [htd] at hafter
        simp only [] at hafter
        by_cases howner : t0.user_email ≠ cur.email
        · rw [if_pos howner] at hafter
          rw [hbefore] at hafter
          cases Option.some.inj hafter
          rfl
        · rw [if_neg howner] at hafter
          by_cases hid : id = task_id
          · subst hid
            rw [dbGet_dbSave_self] at hafter
            rw [htd] at hbefore
            have ht0 : t0 = t := Doc.task.inj (Option.some.inj hbefore)
            have ht' := Doc.task.inj (Option.some.inj hafter)
            rw [← ht', ← ht0]
          · rw [dbGet_dbSave_ne db _ id _ hid, hbefore] at hafter
            cases Option.some.inj hafter
            rfl
  | opDeleteTask task_id cur =>
    simp only [applyOp, delete_task] at hafter
    cases htd : dbGet db task_id with
    | none =>
      rw [htd] at hafter
      simp only [] at hafter
      rw [hbefore] at hafter
      cases Option.some.inj hafter
      rfl
    | some d =>
      cases d with
      | user u0 =>
        rw [htd] at hafter
        simp only [] at hafter
        rw [hbefore] at hafter
        cases Option.some.inj hafter
        rfl
      | task t0 =>
        rw [htd] at hafter
        simp only [] at hafter
        by_cases howner : t0.user_email ≠ cur.email
        · rw [if_pos howner] at hafter
          rw [hbefore] at hafter
          cases Option.some.inj hafter
          rfl
        · rw [if_neg howner] at hafter
          cases hu : dbGet (dbDelete db task_id) ("user_" ++ cur.email) with
          | none =>
            rw [hu] at hafter
            simp only [] at hafter
            have hid : id ≠ task_id := by
              intro he
              rw [he, dbGet_dbDelete_self] at hafter
              exact Option.noConfusion hafter
            rw [dbGet_dbDelete_ne db task_id id hid, hbefore] at hafter
            cases Option.some.inj hafter
            rfl
          | some d2 =>
            cases d2 with
            | task t1 =>
              rw [hu] at hafter
              simp only [] at hafter
              have hid : id ≠ task_id := by
                intro he
                rw [he, dbGet_dbDelete_self] at hafter
                exact Option.noConfusion hafter
              rw [dbGet_dbDelete_ne db task_id id hid, hbefore] at hafter
              cases Option.some.inj hafter
              rfl
            | user u0 =>
              rw [hu] at hafter
              simp only [] at hafter
              by_cases hmemt : task_id ∈ u0.tasks
              · rw [if_pos hmemt] at hafter
                have hid2 : id ≠ "user_" ++ cur.email := by
                  intro he
                  rw [he, dbGet_dbSave_self] at hafter
                  exact Doc.noConfusion (Option.some.inj hafter)
                rw [dbGet_dbSave_ne _ _ id _ hid2] at hafter
                have hid : id ≠ task_id := by
                  intro he
                  rw [he, dbGet_dbDelete_self] at hafter
                  exact Option.noConfusion hafter
                rw [dbGet_dbDelete_ne db task_id id hid, hbefore] at hafter
                cases Option.some.inj hafter
                rfl
              · rw [if_neg hmemt] at hafter
                have hid : id ≠ task_id := by
                  intro he
                  rw [he, dbGet_dbDelete_self] at hafter
                  exact Option.noConfusion hafter
                rw [dbGet_dbDelete_ne db task_id id hid, hbefore] at hafter
                cases Option.some.inj hafter
                rfl

end AuthBackend

namespace AuthBackend

theorem task_user_email_immutable_witness :
    ({ aliceTask with completed := true, updated_at := "t9" } : TaskDoc).user_email =
      aliceTask.user_email :=
  task_user_email_immutable sampleHash
    (.opUpdateTask "task_1" { completed := some true } aliceId "t9") sampleDb "task_1"
    aliceTask { aliceTask with completed := true, updated_at := "t9" } (by decide) (by decide)

end AuthBackend
